import Mathlib

/-!
Shallow embedding of the BMP decoder of `src/code/main.cpp` (`BMPImage::load`
together with the accessors `getWidth`, `getHeight`, `getPixels`), and proofs
about it.

Modelling decisions, all read off the C++ source:

* An input stream is a `List Nat` of byte values together with a read
  position and a fail flag (`ByteStream`).  `sread` models
  `std::istream::read(buf, n)`: on an already-failed stream it does nothing;
  otherwise it overwrites the first `min n avail` bytes of the destination
  buffer, keeps the rest of the buffer, and sets the fail flag when fewer
  than `n` bytes were available.  `seekg` models
  `std::istream::seekg(off, std::ios::beg)`, which is a no-op on a failed
  stream.
* The two packed header structs are kept as their raw byte images
  (14 bytes and 40 bytes), exactly as `file.read(reinterpret_cast<char*>(&hdr),
  sizeof(hdr))` fills them; the little-endian field accessors `u16le`,
  `u32le`, `i32le` decode the fields at the struct offsets.  The default
  member initialisers of the C++ structs give the initial byte images
  (`fileType = 0x4D42`, `planes = 1`, everything else 0).
* `load` takes `Option (List Nat)`: `none` stands for a stream that could
  not be opened (the `if (!file)` branch).  The C++ function returns `bool`
  and distinguishes its three failure exits by their diagnostic messages;
  they are modelled as the inductive `DecodeError`.
* `pixels.resize(width * abs(height))` is modelled with `Int.toNat` of the
  product; for a negative `width` the C++ expression converts a negative
  `int` to a huge `size_t` and the program aborts, a region on which no
  claim is settled (all theorems assume `0 ≤ width`).  Elements appended by
  `resize` have `alpha = 255` (the default member initialiser) and their
  colour samples are indeterminate in C++; the model uses 0.
* `int rowSize = ((width*3 + 3) & (~3))` on a two's-complement `int` equals
  `t - t % 4` (with nonnegative remainder) for `t = width*3 + 3`, which is
  how `rowSizeOf` is written.
-/

/-- Little-endian 16-bit field at byte offset `i` of a byte list. -/
def u16le (bs : List Nat) (i : Nat) : Nat :=
  bs.getD i 0 + 256 * bs.getD (i+1) 0

/-- Little-endian 32-bit field at byte offset `i` of a byte list. -/
def u32le (bs : List Nat) (i : Nat) : Nat :=
  bs.getD i 0 + 256 * bs.getD (i+1) 0 + 65536 * bs.getD (i+2) 0
    + 16777216 * bs.getD (i+3) 0

/-- Little-endian signed (two's-complement) 32-bit field at byte offset `i`. -/
def i32le (bs : List Nat) (i : Nat) : Int :=
  if u32le bs i < 2147483648 then (u32le bs i : Int)
  else (u32le bs i : Int) - 4294967296

/-- A readable, seekable binary stream: the underlying bytes, the current
read position, and the fail state (C++ `failbit`). -/
structure ByteStream where
  data : List Nat
  pos : Nat
  fail : Bool
deriving DecidableEq, Repr

/-- `sread s n buf` models `s.read(buf, n)` for a buffer currently holding
the bytes `buf`: a failed stream extracts nothing; otherwise the available
bytes (at most `n`) overwrite the front of `buf`, and if fewer than `n` were
available the fail flag is set with the position pinned at end of data. -/
def sread (s : ByteStream) (n : Nat) (buf : List Nat) : List Nat × ByteStream :=
  if s.fail then (buf, s)
  else
    let got := (s.data.drop s.pos).take n
    let buf1 := got ++ buf.drop got.length
    if got.length = n then (buf1, ⟨s.data, s.pos + n, false⟩)
    else (buf1, ⟨s.data, s.data.length, true⟩)

/-- `seekg s off` models `s.seekg(off, std::ios::beg)`: a no-op when the
stream is in a failed state. -/
def seekg (s : ByteStream) (off : Nat) : ByteStream :=
  if s.fail then s else ⟨s.data, off, false⟩

/-- The in-memory pixel type `BMPColor` (BGRA byte samples). -/
structure BMPColor where
  blue : Nat
  green : Nat
  red : Nat
  alpha : Nat
deriving DecidableEq, Repr

instance : Inhabited BMPColor := ⟨⟨0, 0, 0, 255⟩⟩

/-- Byte image of a default-constructed `BMPFileHeader`:
`fileType = 0x4D42` ('B','M' little-endian), all other fields 0. -/
def fileHeaderInit : List Nat :=
  [0x42, 0x4D] ++ List.replicate 12 0

/-- Byte image of a default-constructed `BMPInfoHeader`: `planes = 1` at
struct offset 12, all other fields 0. -/
def infoHeaderInit : List Nat :=
  List.replicate 12 0 ++ [1, 0] ++ List.replicate 26 0

/-- The mutable state of a `BMPImage` object: the two header structs (as
their byte images) and the pixel vector. -/
structure BMPImage where
  fileHeader : List Nat
  infoHeader : List Nat
  pixels : List BMPColor
deriving DecidableEq, Repr

/-- A default-constructed `BMPImage`. -/
def BMPImage.init : BMPImage :=
  ⟨fileHeaderInit, infoHeaderInit, []⟩

/-- `getWidth` returns `infoHeader.width`, the signed 32-bit field at
struct offset 4. -/
def BMPImage.getWidth (img : BMPImage) : Int :=
  i32le img.infoHeader 4

/-- `getHeight` returns `infoHeader.height`, the signed 32-bit field at
struct offset 8. -/
def BMPImage.getHeight (img : BMPImage) : Int :=
  i32le img.infoHeader 8

/-- `getPixels` returns the pixel vector. -/
def BMPImage.getPixels (img : BMPImage) : List BMPColor :=
  img.pixels

/-- The three failure exits of `BMPImage::load`, distinguished in the C++
source by their diagnostic messages. -/
inductive DecodeError where
  | fileUnreadable
  | invalidSignature
  | unsupportedFormat
deriving DecidableEq, Repr

/-- `std::vector::resize(n)`: truncate or extend to length `n`; appended
elements are default-constructed `BMPColor` (alpha 255; the colour samples,
indeterminate in C++, are modelled as 0). -/
def vecResize (px : List BMPColor) (n : Nat) : List BMPColor :=
  px.take n ++ List.replicate (n - px.length) ⟨0, 0, 0, 255⟩

/-- `int rowSize = ((width*3 + 3) & (~3))`: rounding `width*3 + 3` down to a
multiple of 4 in two's complement. -/
def rowSizeOf (w : Int) : Int :=
  (w * 3 + 3) - (w * 3 + 3) % 4

/-- Inner pixel loop of `load` for stored row `y`: for `x = 0, …, cnt-1`
write `pixels[y*w + x] = {blue = row[x*3], green = row[x*3+1],
red = row[x*3+2], alpha = 255}` (called with `cnt = w`). -/
def storeRow (w y : Nat) (row : List Nat) : Nat → List BMPColor → List BMPColor
  | 0, px => px
  | x+1, px =>
    (storeRow w y row x px).set (y * w + x)
      ⟨row.getD (x * 3) 0, row.getD (x * 3 + 1) 0, row.getD (x * 3 + 2) 0, 255⟩

/-- Outer row loop of `load`: with `k` rows still to read, read `rowSize`
bytes into the row buffer and store them as visual row `k-1`, then continue;
the loop runs `y = |height|-1, …, 0` in the C++ source, i.e. starts with
`k = |height|`.  Returns the final row buffer, stream, and pixel vector. -/
def loadRows (w rowSize : Nat) :
    Nat → List Nat → ByteStream → List BMPColor →
    List Nat × ByteStream × List BMPColor
  | 0, row, st, px => (row, st, px)
  | k+1, row, st, px =>
    let r := sread st rowSize row
    loadRows w rowSize k r.1 r.2 (storeRow w k r.1 w px)

/-- `BMPImage::load`, step for step from the C++ source.  The argument
`none` stands for a stream that failed to open.  The member fields
`fileHeader` and `infoHeader` are overwritten by the header reads *before*
the corresponding checks run, exactly as in the source; `pixels` is touched
only after both checks pass. -/
def BMPImage.load (img : BMPImage) (input : Option (List Nat)) :
    Except DecodeError Unit × BMPImage :=
  match input with
  | none => (.error .fileUnreadable, img)
  | some data =>
    let r1 := sread ⟨data, 0, false⟩ 14 img.fileHeader
    let fh := r1.1
    if u16le fh 0 ≠ 0x4D42 then
      (.error .invalidSignature, ⟨fh, img.infoHeader, img.pixels⟩)
    else
      let r2 := sread r1.2 40 img.infoHeader
      let ih := r2.1
      if u16le ih 14 ≠ 24 ∨ u32le ih 16 ≠ 0 then
        (.error .unsupportedFormat, ⟨fh, ih, img.pixels⟩)
      else
        let st := seekg r2.2 (u32le fh 10)
        let w := i32le ih 4
        let h := i32le ih 8
        let px0 := vecResize img.pixels ((w * (h.natAbs : Int)).toNat)
        let rs := rowSizeOf w
        let r3 := loadRows w.toNat rs.toNat h.natAbs
          (List.replicate rs.toNat 0) st px0
        (.ok (), ⟨fh, ih, r3.2.2⟩)

/-- File-header field: `offsetData`, the pixel-data offset, at absolute
stream offset 10. -/
def offsetAt (data : List Nat) : Nat := u32le data 10

/-- Info-header field: `width` at absolute stream offset 18. -/
def widthAt (data : List Nat) : Int := i32le data 18

/-- Info-header field: `height` at absolute stream offset 22. -/
def heightAt (data : List Nat) : Int := i32le data 22

/-- Info-header field: `bitCount` at absolute stream offset 28. -/
def bitCountAt (data : List Nat) : Nat := u16le data 28

/-- Info-header field: `compression` at absolute stream offset 30. -/
def compressionAt (data : List Nat) : Nat := u32le data 30

/-- The pixel the decoder is specified to produce for column `x` of the
stored row `r`, for pixel data beginning at offset `off` with `rs` stored
bytes per row: the three bytes of the x-th triplet of that row, read as
blue, green, red, with alpha 255. -/
def storedRowPixel (data : List Nat) (off rs r x : Nat) : BMPColor :=
  ⟨data.getD (off + r * rs + x * 3) 0,
   data.getD (off + r * rs + x * 3 + 1) 0,
   data.getD (off + r * rs + x * 3 + 2) 0, 255⟩


/-- Contents of the `fileHeader` member after the 14-byte header read on a
stream of at least 14 bytes. -/
def fhOf (img : BMPImage) (data : List Nat) : List Nat :=
  data.take 14 ++ img.fileHeader.drop 14

/-- Contents of the `infoHeader` member after the 40-byte header read on a
stream of at least 54 bytes. -/
def ihOf (img : BMPImage) (data : List Nat) : List Nat :=
  (data.drop 14).take 40 ++ img.infoHeader.drop 40

/-- Little-endian byte image of a 32-bit value, used to state the
height-field replacement of claim C9. -/
def u32bytes (n : Nat) : List Nat :=
  [n % 256, n / 256 % 256, n / 65536 % 256, n / 16777216 % 256]

/-- The same stream with the signed height field (absolute offset 22)
replaced by the little-endian encoding of its absolute value. -/
def heightReplaced (data : List Nat) : List Nat :=
  data.take 22 ++ u32bytes (heightAt data).natAbs ++ data.drop 26

/-- A 2x2 well-formed 24-bit stream: offset 54, the first stored row is
solid blue (BGR ff 00 00), the second stored row solid red (BGR 00 00 ff),
each row padded from 6 to 8 bytes. -/
def ex2x2 : List Nat :=
  [0x42, 0x4D, 70, 0, 0, 0, 0, 0, 0, 0, 54, 0, 0, 0] ++
  [40, 0, 0, 0, 2, 0, 0, 0, 2, 0, 0, 0, 1, 0, 24, 0, 0, 0, 0, 0] ++
  List.replicate 20 0 ++
  [255, 0, 0, 255, 0, 0, 0, 0] ++
  [0, 0, 255, 0, 0, 255, 0, 0]

/-- The stream `ex2x2` with height -2 (bytes fe ff ff ff) instead of 2. -/
def ex2x2neg : List Nat :=
  [0x42, 0x4D, 70, 0, 0, 0, 0, 0, 0, 0, 54, 0, 0, 0] ++
  [40, 0, 0, 0, 2, 0, 0, 0, 0xFE, 0xFF, 0xFF, 0xFF, 1, 0, 24, 0, 0, 0, 0, 0] ++
  List.replicate 20 0 ++
  [255, 0, 0, 255, 0, 0, 0, 0] ++
  [0, 0, 255, 0, 0, 255, 0, 0]

/-- A 1x1 well-formed 24-bit stream whose single stored triplet is
(0x10, 0x20, 0x30), padded from 3 to 4 bytes. -/
def ex1x1 : List Nat :=
  [0x42, 0x4D, 58, 0, 0, 0, 0, 0, 0, 0, 54, 0, 0, 0] ++
  [40, 0, 0, 0, 1, 0, 0, 0, 1, 0, 0, 0, 1, 0, 24, 0, 0, 0, 0, 0] ++
  List.replicate 20 0 ++
  [0x10, 0x20, 0x30, 0]

/-- A stream with a well-formed header except for `bitCount = 8`
(width 7, height 2). -/
def ex8bit : List Nat :=
  [0x42, 0x4D, 70, 0, 0, 0, 0, 0, 0, 0, 54, 0, 0, 0] ++
  [40, 0, 0, 0, 7, 0, 0, 0, 2, 0, 0, 0, 1, 0, 8, 0, 0, 0, 0, 0] ++
  List.replicate 20 0

/-- A 54-byte stream with valid 1x1 24-bit headers but an empty pixel
region (one row of 4 stored bytes is missing). -/
def exTrunc : List Nat :=
  [0x42, 0x4D, 54, 0, 0, 0, 0, 0, 0, 0, 54, 0, 0, 0] ++
  [40, 0, 0, 0, 1, 0, 0, 0, 1, 0, 0, 0, 1, 0, 24, 0, 0, 0, 0, 0] ++
  List.replicate 20 0

/-- A 20-byte stream whose first two bytes are not the 'B','M' pair. -/
def exBadSig : List Nat :=
  [0x41, 0x41] ++ List.replicate 18 0

/-- A 1x1 24-bit stream whose pixel-data offset 58 leaves a 4-byte gap
after the 54 header bytes; the gap holds 1,2,3,4. -/
def exGap1 : List Nat :=
  [0x42, 0x4D, 62, 0, 0, 0, 0, 0, 0, 0, 58, 0, 0, 0] ++
  [40, 0, 0, 0, 1, 0, 0, 0, 1, 0, 0, 0, 1, 0, 24, 0, 0, 0, 0, 0] ++
  List.replicate 20 0 ++
  [1, 2, 3, 4] ++
  [10, 20, 30, 0]

/-- Same as `exGap1` except the 4 gap bytes hold 9,8,7,6. -/
def exGap2 : List Nat :=
  [0x42, 0x4D, 62, 0, 0, 0, 0, 0, 0, 0, 58, 0, 0, 0] ++
  [40, 0, 0, 0, 1, 0, 0, 0, 1, 0, 0, 0, 1, 0, 24, 0, 0, 0, 0, 0] ++
  List.replicate 20 0 ++
  [9, 8, 7, 6] ++
  [10, 20, 30, 0]

lemma getD_append_lt {α : Type} (l1 l2 : List α) (i : Nat) (d : α)
    (h : i < l1.length) : (l1 ++ l2).getD i d = l1.getD i d := by
  rw [List.getD_append _ _ _ _ h]

lemma getD_drop_take {α : Type} (l : List α) (s n i : Nat) (d : α) (h : i < n) :
    ((l.drop s).take n).getD i d = l.getD (s + i) d := by
  rw [List.getD_eq_getElem?_getD, List.getElem?_take_of_lt h, List.getElem?_drop,
    List.getD_eq_getElem?_getD]

lemma getD_drop {α : Type} (l : List α) (s i : Nat) (d : α) :
    (l.drop s).getD i d = l.getD (s + i) d := by
  rw [List.getD_eq_getElem?_getD, List.getElem?_drop, List.getD_eq_getElem?_getD]

lemma getD_set_eq {α : Type} (l : List α) (i : Nat) (a d : α)
    (h : i < l.length) : (l.set i a).getD i d = a := by
  simp [List.getD_eq_getElem?_getD, List.getElem?_set_self', h]

lemma getD_set_ne {α : Type} (l : List α) (i j : Nat) (a d : α)
    (h : i ≠ j) : (l.set i a).getD j d = l.getD j d := by
  simp [List.getD_eq_getElem?_getD, List.getElem?_set_ne h]

lemma sread_ok (data : List Nat) (pos n : Nat) (buf : List Nat)
    (h : pos + n ≤ data.length) :
    sread ⟨data, pos, false⟩ n buf =
      ((data.drop pos).take n ++ buf.drop n, ⟨data, pos + n, false⟩) := by
  have hlen : ((data.drop pos).take n).length = n := by
    simp only [List.length_take, List.length_drop]
    omega
  simp only [sread, Bool.false_eq_true, if_false, hlen, eq_self_iff_true, if_true]

lemma vecResize_length (px : List BMPColor) (n : Nat) :
    (vecResize px n).length = n := by
  simp only [vecResize, List.length_append, List.length_take, List.length_replicate]
  omega

lemma storeRow_length (w y : Nat) (row : List Nat) :
    ∀ (cnt : Nat) (px : List BMPColor),
      (storeRow w y row cnt px).length = px.length := by
  intro cnt
  induction cnt with
  | zero => intro px; rfl
  | succ c ih =>
    intro px
    simp only [storeRow, List.length_set, ih]

lemma storeRow_getD_hit (w y : Nat) (row : List Nat) :
    ∀ (cnt : Nat) (px : List BMPColor) (x : Nat) (d : BMPColor),
      x < cnt → y * w + x < px.length →
      (storeRow w y row cnt px).getD (y * w + x) d =
        ⟨row.getD (x * 3) 0, row.getD (x * 3 + 1) 0, row.getD (x * 3 + 2) 0, 255⟩ := by
  intro cnt
  induction cnt with
  | zero => intro px x d hx; omega
  | succ c ih =>
    intro px x d hx hlen
    by_cases hxc : x = c
    · subst hxc
      have hl : y * w + x < (storeRow w y row x px).length := by
        rw [storeRow_length]; exact hlen
      simp only [storeRow]
      exact getD_set_eq _ _ _ _ hl
    · have hx' : x < c := by omega
      simp only [storeRow]
      rw [getD_set_ne _ _ _ _ _ (by omega)]
      exact ih px x d hx' hlen

lemma storeRow_getD_miss (w y : Nat) (row : List Nat) :
    ∀ (cnt : Nat) (px : List BMPColor) (j : Nat) (d : BMPColor),
      (∀ x, x < cnt → j ≠ y * w + x) →
      (storeRow w y row cnt px).getD j d = px.getD j d := by
  intro cnt
  induction cnt with
  | zero => intro px j d _; rfl
  | succ c ih =>
    intro px j d hj
    simp only [storeRow]
    rw [getD_set_ne _ _ _ _ _ (fun h => hj c (by omega) h.symm)]
    exact ih px j d (fun x hx => hj x (by omega))

lemma loadRows_length (w rs : Nat) :
    ∀ (k : Nat) (row : List Nat) (st : ByteStream) (px : List BMPColor),
      (loadRows w rs k row st px).2.2.length = px.length := by
  intro k
  induction k with
  | zero => intro row st px; rfl
  | succ k ih =>
    intro row st px
    simp only [loadRows]
    rw [ih, storeRow_length]

lemma loadRows_spec (data : List Nat) (w rs : Nat) (hwrs : 3 * w ≤ rs) :
    ∀ (k start : Nat) (row : List Nat) (px : List BMPColor),
      row.length = rs →
      start + k * rs ≤ data.length →
      (loadRows w rs k row ⟨data, start, false⟩ px).2.1 =
        ⟨data, start + k * rs, false⟩ ∧
      (∀ y x (d : BMPColor), y < k → x < w → y * w + x < px.length →
        (loadRows w rs k row ⟨data, start, false⟩ px).2.2.getD (y * w + x) d =
          storedRowPixel data start rs (k - 1 - y) x) ∧
      (∀ j (d : BMPColor), k * w ≤ j →
        (loadRows w rs k row ⟨data, start, false⟩ px).2.2.getD j d =
          px.getD j d) := by
  intro k
  induction k with
  | zero =>
    intro start row px hrow hlen
    refine ⟨by simp [loadRows], fun y x d hy => absurd hy (Nat.not_lt_zero y), fun j d hj => rfl⟩
  | succ k ih =>
    intro start row px hrow hlen
    have hmul : (k + 1) * rs = k * rs + rs := Nat.succ_mul k rs
    have h1 : start + rs ≤ data.length := by omega
    have hs : sread ⟨data, start, false⟩ rs row =
        ((data.drop start).take rs ++ row.drop rs, ⟨data, start + rs, false⟩) :=
      sread_ok data start rs row h1
    have hrow0 : row.drop rs = [] := List.drop_eq_nil_of_le (le_of_eq hrow)
    have hrow1len : ((data.drop start).take rs).length = rs := by
      simp only [List.length_take, List.length_drop]; omega
    have hstep : loadRows w rs (k + 1) row ⟨data, start, false⟩ px =
        loadRows w rs k ((data.drop start).take rs) ⟨data, start + rs, false⟩
          (storeRow w k ((data.drop start).take rs) w px) := by
      simp only [loadRows, hs, hrow0, List.append_nil]
    obtain ⟨ihB, ihC, ihD⟩ :=
      ih (start + rs) ((data.drop start).take rs)
        (storeRow w k ((data.drop start).take rs) w px) hrow1len (by omega)
    rw [hstep]
    refine ⟨?_, ?_, ?_⟩
    · rw [ihB]
      have : start + rs + k * rs = start + (k + 1) * rs := by omega
      rw [this]
    · intro y x d hy hx hxl
      by_cases hyk : y = k
      · subst hyk
        rw [ihD (y * w + x) d (Nat.le_add_right _ _)]
        rw [storeRow_getD_hit w y ((data.drop start).take rs) w px x d hx hxl]
        have hi0 : x * 3 < rs := by omega
        have hi1 : x * 3 + 1 < rs := by omega
        have hi2 : x * 3 + 2 < rs := by omega
        rw [getD_drop_take data start rs (x * 3) 0 hi0,
          getD_drop_take data start rs (x * 3 + 1) 0 hi1,
          getD_drop_take data start rs (x * 3 + 2) 0 hi2]
        have hidx : y + 1 - 1 - y = 0 := by omega
        simp only [storedRowPixel, hidx, Nat.zero_mul, Nat.add_zero, Nat.add_assoc]
      · have hy' : y < k := by omega
        rw [ihC y x d hy' hx (by rw [storeRow_length]; exact hxl)]
        have he : k + 1 - 1 - y = (k - 1 - y) + 1 := by omega
        have hidx : start + rs + (k - 1 - y) * rs = start + (k + 1 - 1 - y) * rs := by
          rw [he, Nat.succ_mul]; ring
        simp only [storedRowPixel]
        rw [hidx]
    · intro j d hj
      have hmw : (k + 1) * w = k * w + w := Nat.succ_mul k w
      rw [ihD j d (by omega)]
      exact storeRow_getD_miss w k ((data.drop start).take rs) w px j d
        (fun x hx => by omega)


lemma getD_take {α : Type} (l : List α) (n i : Nat) (d : α) (h : i < n) :
    (l.take n).getD i d = l.getD i d := by
  rw [List.getD_eq_getElem?_getD, List.getElem?_take_of_lt h, List.getD_eq_getElem?_getD]

lemma fhOf_getD (img : BMPImage) (data : List Nat) (i : Nat) (d : Nat)
    (hi : i < 14) (hlen : i < data.length) :
    (fhOf img data).getD i d = data.getD i d := by
  rw [fhOf, getD_append_lt _ _ _ _ (by simp only [List.length_take]; omega),
    getD_take _ _ _ _ hi]

lemma ihOf_getD (img : BMPImage) (data : List Nat) (i : Nat) (d : Nat)
    (hi : i < 40) (hlen : 54 ≤ data.length) :
    (ihOf img data).getD i d = data.getD (14 + i) d := by
  rw [ihOf, getD_append_lt _ _ _ _
    (by simp only [List.length_take, List.length_drop]; omega),
    getD_drop_take _ _ _ _ _ hi]

lemma u16le_fhOf (img : BMPImage) (data : List Nat) (i : Nat)
    (hi : i + 1 < 14) (hlen : 14 ≤ data.length) :
    u16le (fhOf img data) i = u16le data i := by
  unfold u16le
  rw [fhOf_getD _ _ _ _ (by omega) (by omega), fhOf_getD _ _ _ _ (by omega) (by omega)]

lemma u32le_fhOf (img : BMPImage) (data : List Nat) (i : Nat)
    (hi : i + 3 < 14) (hlen : 14 ≤ data.length) :
    u32le (fhOf img data) i = u32le data i := by
  unfold u32le
  rw [fhOf_getD _ _ _ _ (by omega) (by omega), fhOf_getD _ _ _ _ (by omega) (by omega),
    fhOf_getD _ _ _ _ (by omega) (by omega), fhOf_getD _ _ _ _ (by omega) (by omega)]

lemma u16le_ihOf (img : BMPImage) (data : List Nat) (i : Nat)
    (hi : i + 1 < 40) (hlen : 54 ≤ data.length) :
    u16le (ihOf img data) i = u16le data (14 + i) := by
  unfold u16le
  rw [ihOf_getD _ _ _ _ (by omega) hlen, ihOf_getD _ _ _ _ (by omega) hlen]
  have h1 : 14 + (i + 1) = 14 + i + 1 := by omega
  rw [h1]

lemma u32le_ihOf (img : BMPImage) (data : List Nat) (i : Nat)
    (hi : i + 3 < 40) (hlen : 54 ≤ data.length) :
    u32le (ihOf img data) i = u32le data (14 + i) := by
  unfold u32le
  rw [ihOf_getD _ _ _ _ (by omega) hlen, ihOf_getD _ _ _ _ (by omega) hlen,
    ihOf_getD _ _ _ _ (by omega) hlen, ihOf_getD _ _ _ _ (by omega) hlen]
  have h1 : 14 + (i + 1) = 14 + i + 1 := by omega
  have h2 : 14 + (i + 2) = 14 + i + 2 := by omega
  have h3 : 14 + (i + 3) = 14 + i + 3 := by omega
  rw [h1, h2, h3]

lemma i32le_congr (a b : List Nat) (i j : Nat) (h : u32le a i = u32le b j) :
    i32le a i = i32le b j := by
  unfold i32le
  rw [h]

lemma i32le_ihOf (img : BMPImage) (data : List Nat) (i : Nat)
    (hi : i + 3 < 40) (hlen : 54 ≤ data.length) :
    i32le (ihOf img data) i = i32le data (14 + i) :=
  i32le_congr _ _ _ _ (u32le_ihOf img data i hi hlen)

lemma sread_fst (data : List Nat) (pos n : Nat) (buf : List Nat) :
    (sread ⟨data, pos, false⟩ n buf).1 =
      (data.drop pos).take n ++ buf.drop ((data.drop pos).take n).length := by
  unfold sread
  simp only [Bool.false_eq_true, if_false]
  split <;> rfl

lemma load_badsig (img : BMPImage) (data : List Nat)
    (h2 : 2 ≤ data.length)
    (hb0 : data.getD 0 0 < 256) (hb1 : data.getD 1 0 < 256)
    (hsig : data.getD 0 0 ≠ 0x42 ∨ data.getD 1 0 ≠ 0x4D) :
    img.load (some data) =
      (.error .invalidSignature,
       ⟨data.take 14 ++ img.fileHeader.drop (data.take 14).length,
        img.infoHeader, img.pixels⟩) := by
  have hfst : (sread ⟨data, 0, false⟩ 14 img.fileHeader).1 =
      data.take 14 ++ img.fileHeader.drop (data.take 14).length := by
    rw [sread_fst, List.drop_zero]
  have hg0 : (data.take 14 ++ img.fileHeader.drop (data.take 14).length).getD 0 0 =
      data.getD 0 0 := by
    rw [getD_append_lt _ _ _ _ (by simp only [List.length_take]; omega),
      getD_take _ _ _ _ (by omega)]
  have hg1 : (data.take 14 ++ img.fileHeader.drop (data.take 14).length).getD 1 0 =
      data.getD 1 0 := by
    rw [getD_append_lt _ _ _ _ (by simp only [List.length_take]; omega),
      getD_take _ _ _ _ (by omega)]
  have hcond : u16le (data.take 14 ++ img.fileHeader.drop (data.take 14).length) 0
      ≠ 0x4D42 := by
    unfold u16le
    rw [hg0, hg1]
    omega
  simp only [BMPImage.load, hfst]
  rw [if_pos hcond]

lemma load_unsupported (img : BMPImage) (data : List Nat)
    (h54 : 54 ≤ data.length)
    (hsig : u16le data 0 = 0x4D42)
    (hfmt : u16le data 28 ≠ 24 ∨ u32le data 30 ≠ 0) :
    img.load (some data) =
      (.error .unsupportedFormat, ⟨fhOf img data, ihOf img data, img.pixels⟩) := by
  have hr1 : sread ⟨data, 0, false⟩ 14 img.fileHeader =
      (fhOf img data, ⟨data, 14, false⟩) := by
    rw [sread_ok data 0 14 img.fileHeader (by omega), List.drop_zero]
    rfl
  have hc1 : ¬ u16le (fhOf img data) 0 ≠ 0x4D42 := by
    rw [u16le_fhOf img data 0 (by omega) (by omega)]
    exact not_ne_iff.mpr hsig
  have hr2 : sread (⟨data, 14, false⟩ : ByteStream) 40 img.infoHeader =
      (ihOf img data, ⟨data, 54, false⟩) := by
    rw [sread_ok data 14 40 img.infoHeader (by omega)]
    rfl
  have hc2 : u16le (ihOf img data) 14 ≠ 24 ∨ u32le (ihOf img data) 16 ≠ 0 := by
    rw [u16le_ihOf img data 14 (by omega) h54, u32le_ihOf img data 16 (by omega) h54]
    exact hfmt
  simp only [BMPImage.load, hr1, if_neg hc1, hr2, if_pos hc2]

lemma load_ok (img : BMPImage) (data : List Nat)
    (h54 : 54 ≤ data.length)
    (hsig : u16le data 0 = 0x4D42)
    (hbc : u16le data 28 = 24)
    (hcomp : u32le data 30 = 0) :
    img.load (some data) =
      (.ok (), ⟨fhOf img data, ihOf img data,
        (loadRows (widthAt data).toNat (rowSizeOf (widthAt data)).toNat
          (heightAt data).natAbs
          (List.replicate (rowSizeOf (widthAt data)).toNat 0)
          ⟨data, offsetAt data, false⟩
          (vecResize img.pixels
            ((widthAt data * ((heightAt data).natAbs : Int)).toNat))).2.2⟩) := by
  have hr1 : sread ⟨data, 0, false⟩ 14 img.fileHeader =
      (fhOf img data, ⟨data, 14, false⟩) := by
    rw [sread_ok data 0 14 img.fileHeader (by omega), List.drop_zero]
    rfl
  have hc1 : ¬ u16le (fhOf img data) 0 ≠ 0x4D42 := by
    rw [u16le_fhOf img data 0 (by omega) (by omega)]
    exact not_ne_iff.mpr hsig
  have hr2 : sread (⟨data, 14, false⟩ : ByteStream) 40 img.infoHeader =
      (ihOf img data, ⟨data, 54, false⟩) := by
    rw [sread_ok data 14 40 img.infoHeader (by omega)]
    rfl
  have hc2 : ¬ (u16le (ihOf img data) 14 ≠ 24 ∨ u32le (ihOf img data) 16 ≠ 0) := by
    rw [u16le_ihOf img data 14 (by omega) h54, u32le_ihOf img data 16 (by omega) h54]
    push_neg
    exact ⟨hbc, hcomp⟩
  have hseek : seekg (⟨data, 54, false⟩ : ByteStream) (u32le (fhOf img data) 10) =
      ⟨data, offsetAt data, false⟩ := by
    rw [u32le_fhOf img data 10 (by omega) (by omega)]
    rfl
  have hwidth : i32le (ihOf img data) 4 = widthAt data :=
    i32le_ihOf img data 4 (by omega) h54
  have hheight : i32le (ihOf img data) 8 = heightAt data :=
    i32le_ihOf img data 8 (by omega) h54
  simp only [BMPImage.load, hr1, if_neg hc1, hr2, if_neg hc2, hseek, hwidth, hheight]

lemma rowSizeOf_toNat (w : Nat) : (rowSizeOf (w : Int)).toNat = (w * 3 + 3) / 4 * 4 := by
  unfold rowSizeOf
  omega

lemma le_rowSizeOf_toNat (w : Nat) : 3 * w ≤ (rowSizeOf (w : Int)).toNat := by
  unfold rowSizeOf
  omega

lemma toNat_mul_natAbs (w : Int) (n : Nat) (hw : 0 ≤ w) :
    (w * (n : Int)).toNat = w.toNat * n := by
  rcases Int.eq_ofNat_of_zero_le hw with ⟨m, rfl⟩
  rw [← Int.natCast_mul, Int.toNat_natCast, Int.toNat_natCast]

lemma load_pixel (img : BMPImage) (data : List Nat)
    (h54 : 54 ≤ data.length)
    (hsig : u16le data 0 = 0x4D42)
    (hbc : u16le data 28 = 24)
    (hcomp : u32le data 30 = 0)
    (hw : 0 ≤ widthAt data)
    (hdata : offsetAt data +
      (heightAt data).natAbs * (rowSizeOf (widthAt data)).toNat ≤ data.length) :
    ∀ (y x : Nat) (d : BMPColor),
      y < (heightAt data).natAbs → x < (widthAt data).toNat →
      ((img.load (some data)).2.pixels).getD (y * (widthAt data).toNat + x) d =
        storedRowPixel data (offsetAt data) (rowSizeOf (widthAt data)).toNat
          ((heightAt data).natAbs - 1 - y) x := by
  intro y x d hy hx
  rw [load_ok img data h54 hsig hbc hcomp]
  have hcast : rowSizeOf (widthAt data) = rowSizeOf (((widthAt data).toNat : Nat) : Int) := by
    rw [Int.toNat_of_nonneg hw]
  have hwrs : 3 * (widthAt data).toNat ≤ (rowSizeOf (widthAt data)).toNat := by
    rw [hcast]
    exact le_rowSizeOf_toNat _
  have hpx0len :
      (vecResize img.pixels
        ((widthAt data * ((heightAt data).natAbs : Int)).toNat)).length =
      (widthAt data).toNat * (heightAt data).natAbs := by
    rw [vecResize_length, toNat_mul_natAbs _ _ hw]
  have hidx : y * (widthAt data).toNat + x <
      (widthAt data).toNat * (heightAt data).natAbs := by
    calc y * (widthAt data).toNat + x
        < y * (widthAt data).toNat + (widthAt data).toNat := by omega
      _ = (y + 1) * (widthAt data).toNat := (Nat.succ_mul y _).symm
      _ ≤ (heightAt data).natAbs * (widthAt data).toNat :=
          Nat.mul_le_mul_right _ (by omega)
      _ = (widthAt data).toNat * (heightAt data).natAbs := Nat.mul_comm _ _
  obtain ⟨hB, hC, hD⟩ := loadRows_spec data (widthAt data).toNat
    (rowSizeOf (widthAt data)).toNat hwrs (heightAt data).natAbs (offsetAt data)
    (List.replicate (rowSizeOf (widthAt data)).toNat 0)
    (vecResize img.pixels ((widthAt data * ((heightAt data).natAbs : Int)).toNat))
    (List.length_replicate _ _) hdata
  exact hC y x d hy hx (by rw [hpx0len]; exact hidx)

lemma sread_congr (s1 s2 : ByteStream) (n : Nat) (buf : List Nat)
    (hf : s1.fail = s2.fail) (h : s1.data.drop s1.pos = s2.data.drop s2.pos) :
    (sread s1 n buf).1 = (sread s2 n buf).1 ∧
    (sread s1 n buf).2.fail = (sread s2 n buf).2.fail ∧
    (sread s1 n buf).2.data.drop ((sread s1 n buf).2.pos) =
      (sread s2 n buf).2.data.drop ((sread s2 n buf).2.pos) := by
  obtain ⟨d1, p1, f1⟩ := s1
  obtain ⟨d2, p2, f2⟩ := s2
  dsimp at hf h
  subst hf
  cases f1
  · unfold sread
    simp only [Bool.false_eq_true, if_false]
    rw [h]
    by_cases hc : ((d2.drop p2).take n).length = n
    · rw [if_pos hc, if_pos hc]
      refine ⟨rfl, rfl, ?_⟩
      dsimp
      have h1 : d1.drop (p1 + n) = (d1.drop p1).drop n := by
        rw [List.drop_drop, Nat.add_comm]
      have h2 : d2.drop (p2 + n) = (d2.drop p2).drop n := by
        rw [List.drop_drop, Nat.add_comm]
      rw [h1, h2, h]
    · rw [if_neg hc, if_neg hc]
      refine ⟨rfl, rfl, ?_⟩
      dsimp
      rw [List.drop_length, List.drop_length]
  · exact ⟨rfl, rfl, h⟩

lemma loadRows_congr (w rs : Nat) :
    ∀ (k : Nat) (row : List Nat) (px : List BMPColor) (s1 s2 : ByteStream),
      s1.fail = s2.fail → s1.data.drop s1.pos = s2.data.drop s2.pos →
      (loadRows w rs k row s1 px).1 = (loadRows w rs k row s2 px).1 ∧
      (loadRows w rs k row s1 px).2.2 = (loadRows w rs k row s2 px).2.2 := by
  intro k
  induction k with
  | zero => intro row px s1 s2 hf h; exact ⟨rfl, rfl⟩
  | succ k ih =>
    intro row px s1 s2 hf h
    obtain ⟨hr1, hr2, hr3⟩ := sread_congr s1 s2 rs row hf h
    simp only [loadRows]
    rw [hr1]
    exact ih (sread s2 rs row).1 (storeRow w k (sread s2 rs row).1 w px)
      (sread s1 rs row).2 (sread s2 rs row).2 hr2 hr3

/-- C1: for a well-formed 24-bit uncompressed stream with positive height,
decode stores rows in reversed order relative to the stream: visual grid
row `y` (for every column `x`) holds the pixel of *stored* row
`|height|-1-y`, so the first stored row (index 0) populates grid row
`|height|-1` and the last stored row (index `|height|-1`) populates grid
row 0. -/
theorem decode_rows_reversed (img : BMPImage) (data : List Nat)
    (h54 : 54 ≤ data.length)
    (hsig : u16le data 0 = 0x4D42)
    (hbc : bitCountAt data = 24)
    (hcomp : compressionAt data = 0)
    (hw : 0 ≤ widthAt data)
    (hh : 0 < heightAt data)
    (hdata : offsetAt data +
      (heightAt data).natAbs * (rowSizeOf (widthAt data)).toNat ≤ data.length) :
    ∀ (y x : Nat), y < (heightAt data).natAbs → x < (widthAt data).toNat →
      ((img.load (some data)).2.pixels).getD
          (y * (widthAt data).toNat + x) default =
        storedRowPixel data (offsetAt data) (rowSizeOf (widthAt data)).toNat
          ((heightAt data).natAbs - 1 - y) x := by
  intro y x hy hx
  exact load_pixel img data h54 hsig hbc hcomp hw hdata y x default hy hx

/-- C1 witness: on the concrete 2x2 stream `ex2x2` (stored bottom-to-top,
first stored row blue, second red) the theorem applies, and the decoded
grid has red in row 0 and blue in row 1. -/
theorem decode_rows_reversed_witness :
    ((BMPImage.init.load (some ex2x2)).2.pixels).getD
        (0 * (widthAt ex2x2).toNat + 0) default =
      storedRowPixel ex2x2 (offsetAt ex2x2) (rowSizeOf (widthAt ex2x2)).toNat
        ((heightAt ex2x2).natAbs - 1 - 0) 0 ∧
    ((BMPImage.init.load (some ex2x2)).2.pixels).getD 0 default = ⟨0, 0, 255, 255⟩ ∧
    ((BMPImage.init.load (some ex2x2)).2.pixels).getD 1 default = ⟨0, 0, 255, 255⟩ ∧
    ((BMPImage.init.load (some ex2x2)).2.pixels).getD 2 default = ⟨255, 0, 0, 255⟩ ∧
    ((BMPImage.init.load (some ex2x2)).2.pixels).getD 3 default = ⟨255, 0, 0, 255⟩ := by
  refine ⟨?_, by decide, by decide, by decide, by decide⟩
  exact decode_rows_reversed BMPImage.init ex2x2 (by decide) (by decide) (by decide)
    (by decide) (by decide) (by decide) (by decide) 0 0 (by decide) (by decide)

/-- C2: every decoded pixel's blue component is the first byte of its
stored triplet, green the second, red the third, and alpha is 255. -/
theorem decode_channel_mapping (img : BMPImage) (data : List Nat)
    (h54 : 54 ≤ data.length)
    (hsig : u16le data 0 = 0x4D42)
    (hbc : bitCountAt data = 24)
    (hcomp : compressionAt data = 0)
    (hw : 0 ≤ widthAt data)
    (hdata : offsetAt data +
      (heightAt data).natAbs * (rowSizeOf (widthAt data)).toNat ≤ data.length) :
    ∀ (y x : Nat), y < (heightAt data).natAbs → x < (widthAt data).toNat →
      (((img.load (some data)).2.pixels).getD
          (y * (widthAt data).toNat + x) default).blue =
        data.getD (offsetAt data +
          ((heightAt data).natAbs - 1 - y) * (rowSizeOf (widthAt data)).toNat
            + x * 3) 0 ∧
      (((img.load (some data)).2.pixels).getD
          (y * (widthAt data).toNat + x) default).green =
        data.getD (offsetAt data +
          ((heightAt data).natAbs - 1 - y) * (rowSizeOf (widthAt data)).toNat
            + x * 3 + 1) 0 ∧
      (((img.load (some data)).2.pixels).getD
          (y * (widthAt data).toNat + x) default).red =
        data.getD (offsetAt data +
          ((heightAt data).natAbs - 1 - y) * (rowSizeOf (widthAt data)).toNat
            + x * 3 + 2) 0 ∧
      (((img.load (some data)).2.pixels).getD
          (y * (widthAt data).toNat + x) default).alpha = 255 := by
  intro y x hy hx
  rw [load_pixel img data h54 hsig hbc hcomp hw hdata y x default hy hx]
  exact ⟨rfl, rfl, rfl, rfl⟩

/-- C2 witness: the 1x1 stream `ex1x1` stores the triplet
(0x10, 0x20, 0x30); the theorem applies and the decoded pixel is
blue 0x10, green 0x20, red 0x30, alpha 255. -/
theorem decode_channel_mapping_witness :
    (((BMPImage.init.load (some ex1x1)).2.pixels).getD
        (0 * (widthAt ex1x1).toNat + 0) default).blue =
      ex1x1.getD (offsetAt ex1x1 +
        ((heightAt ex1x1).natAbs - 1 - 0) * (rowSizeOf (widthAt ex1x1)).toNat
          + 0 * 3) 0 ∧
    ((BMPImage.init.load (some ex1x1)).2.pixels).getD 0 default =
      ⟨0x10, 0x20, 0x30, 255⟩ := by
  refine ⟨?_, by decide⟩
  exact (decode_channel_mapping BMPImage.init ex1x1 (by decide) (by decide) (by decide)
    (by decide) (by decide) (by decide) 0 0 (by decide) (by decide)).1

/-- C3: the stored row stride is `width*3` rounded up to a multiple of 4
(`(w*3+3)/4*4` in integer arithmetic, i.e. `ceil(w*3/4)*4`); width 5 gives
rowBytes 16 with 1 padding byte; the row loop consumes exactly that many
bytes per stored row (the stream advances by `|height| * rowBytes` in
total); and each pixel is taken from its own row's `width*3` data bytes at
the aligned position, so nonzero padding never misaligns later rows. -/
theorem decode_row_stride (img : BMPImage) (data : List Nat)
    (h54 : 54 ≤ data.length)
    (hsig : u16le data 0 = 0x4D42)
    (hbc : bitCountAt data = 24)
    (hcomp : compressionAt data = 0)
    (hw : 0 ≤ widthAt data)
    (hdata : offsetAt data +
      (heightAt data).natAbs * (rowSizeOf (widthAt data)).toNat ≤ data.length) :
    (∀ w : Nat, (rowSizeOf (w : Int)).toNat = (w * 3 + 3) / 4 * 4) ∧
    rowSizeOf 5 = 16 ∧
    rowSizeOf 5 - 5 * 3 = 1 ∧
    (loadRows (widthAt data).toNat (rowSizeOf (widthAt data)).toNat
        (heightAt data).natAbs
        (List.replicate (rowSizeOf (widthAt data)).toNat 0)
        ⟨data, offsetAt data, false⟩
        (vecResize img.pixels
          ((widthAt data * ((heightAt data).natAbs : Int)).toNat))).2.1 =
      ⟨data, offsetAt data +
        (heightAt data).natAbs * (rowSizeOf (widthAt data)).toNat, false⟩ ∧
    (∀ (y x : Nat), y < (heightAt data).natAbs → x < (widthAt data).toNat →
      ((img.load (some data)).2.pixels).getD
          (y * (widthAt data).toNat + x) default =
        storedRowPixel data (offsetAt data) (rowSizeOf (widthAt data)).toNat
          ((heightAt data).natAbs - 1 - y) x) := by
  have hcast : rowSizeOf (widthAt data) =
      rowSizeOf (((widthAt data).toNat : Nat) : Int) := by
    rw [Int.toNat_of_nonneg hw]
  have hwrs : 3 * (widthAt data).toNat ≤ (rowSizeOf (widthAt data)).toNat := by
    rw [hcast]
    exact le_rowSizeOf_toNat _
  obtain ⟨hB, hC, hD⟩ := loadRows_spec data (widthAt data).toNat
    (rowSizeOf (widthAt data)).toNat hwrs (heightAt data).natAbs (offsetAt data)
    (List.replicate (rowSizeOf (widthAt data)).toNat 0)
    (vecResize img.pixels ((widthAt data * ((heightAt data).natAbs : Int)).toNat))
    (List.length_replicate _ _) hdata
  refine ⟨rowSizeOf_toNat, by decide, by decide, hB, ?_⟩
  intro y x hy hx
  exact load_pixel img data h54 hsig hbc hcomp hw hdata y x default hy hx

/-- C3 witness: on `ex2x2` the theorem applies; in particular the generic
stride formula holds, `rowSizeOf 5 = 16` with padding 1, and the row loop
ends with the stream at offset 54 + 2*8 = 70. -/
theorem decode_row_stride_witness :
    (rowSizeOf 5).toNat = (5 * 3 + 3) / 4 * 4 ∧
    rowSizeOf 5 = 16 ∧
    (loadRows (widthAt ex2x2).toNat (rowSizeOf (widthAt ex2x2)).toNat
        (heightAt ex2x2).natAbs
        (List.replicate (rowSizeOf (widthAt ex2x2)).toNat 0)
        ⟨ex2x2, offsetAt ex2x2, false⟩
        (vecResize BMPImage.init.pixels
          ((widthAt ex2x2 * ((heightAt ex2x2).natAbs : Int)).toNat))).2.1 =
      ⟨ex2x2, offsetAt ex2x2 +
        (heightAt ex2x2).natAbs * (rowSizeOf (widthAt ex2x2)).toNat, false⟩ := by
  have h := decode_row_stride BMPImage.init ex2x2 (by decide) (by decide) (by decide)
    (by decide) (by decide) (by decide)
  exact ⟨h.1 5, h.2.1, h.2.2.2.1⟩

/-- C4: on a stream passing the signature and format checks the decode
succeeds and the grid has exactly width * |height| entries. -/
theorem decode_grid_length (img : BMPImage) (data : List Nat)
    (h54 : 54 ≤ data.length)
    (hsig : u16le data 0 = 0x4D42)
    (hbc : bitCountAt data = 24)
    (hcomp : compressionAt data = 0)
    (hw : 0 ≤ widthAt data) :
    (img.load (some data)).1 = .ok () ∧
    ((img.load (some data)).2.pixels).length =
      (widthAt data).toNat * (heightAt data).natAbs := by
  rw [load_ok img data h54 hsig hbc hcomp]
  refine ⟨rfl, ?_⟩
  dsimp only
  rw [loadRows_length, vecResize_length, toNat_mul_natAbs _ _ hw]

/-- C4 witness: `ex2x2` decodes successfully and its grid has
2 * 2 = 4 entries. -/
theorem decode_grid_length_witness :
    (BMPImage.init.load (some ex2x2)).1 = .ok () ∧
    ((BMPImage.init.load (some ex2x2)).2.pixels).length =
      (widthAt ex2x2).toNat * (heightAt ex2x2).natAbs ∧
    ((BMPImage.init.load (some ex2x2)).2.pixels).length = 4 := by
  have h := decode_grid_length BMPImage.init ex2x2 (by decide) (by decide)
    (by decide) (by decide) (by decide)
  exact ⟨h.1, h.2, by decide⟩

/-- C5: a readable stream whose first two bytes are not 'B','M' fails with
`InvalidSignature`, leaves the pixel storage (and the info header) of the
decoder object untouched, and the outcome depends only on the 14 file
header bytes — any stream with the same first 14 bytes produces the
identical result, so nothing beyond the file header is read. -/
theorem decode_invalid_signature (img : BMPImage) (data : List Nat)
    (h2 : 2 ≤ data.length)
    (hb0 : data.getD 0 0 < 256) (hb1 : data.getD 1 0 < 256)
    (hsig : data.getD 0 0 ≠ 0x42 ∨ data.getD 1 0 ≠ 0x4D) :
    (img.load (some data)).1 = .error .invalidSignature ∧
    (img.load (some data)).2.pixels = img.pixels ∧
    (img.load (some data)).2.infoHeader = img.infoHeader ∧
    ∀ data2 : List Nat, data2.take 14 = data.take 14 →
      img.load (some data2) = img.load (some data) := by
  have hmain := load_badsig img data h2 hb0 hb1 hsig
  refine ⟨by rw [hmain], by rw [hmain], by rw [hmain], ?_⟩
  intro data2 h14
  have hlen14 : (data2.take 14).length = (data.take 14).length := by rw [h14]
  have h2len : 2 ≤ data2.length := by
    simp only [List.length_take] at hlen14
    omega
  have hg : ∀ i, i < 2 → data2.getD i 0 = data.getD i 0 := by
    intro i hi
    have hgi : (data2.take 14).getD i 0 = (data.take 14).getD i 0 := by rw [h14]
    rwa [getD_take _ _ _ _ (by omega), getD_take _ _ _ _ (by omega)] at hgi
  have hmain2 := load_badsig img data2 h2len
    (by rw [hg 0 (by omega)]; exact hb0)
    (by rw [hg 1 (by omega)]; exact hb1)
    (by rw [hg 0 (by omega), hg 1 (by omega)]; exact hsig)
  rw [hmain, hmain2, h14]

/-- C5 witness: the 20-byte stream `exBadSig` (first bytes 0x41 0x41) is
rejected with `InvalidSignature`, pixels stay empty, and appending junk
beyond byte 14 does not change the result. -/
theorem decode_invalid_signature_witness :
    (BMPImage.init.load (some exBadSig)).1 = .error .invalidSignature ∧
    (BMPImage.init.load (some exBadSig)).2.pixels = BMPImage.init.pixels ∧
    BMPImage.init.load (some (exBadSig ++ [9, 9, 9])) =
      BMPImage.init.load (some exBadSig) := by
  have h := decode_invalid_signature BMPImage.init exBadSig (by decide) (by decide)
    (by decide) (by decide)
  exact ⟨h.1, h.2.1, h.2.2.2 (exBadSig ++ [9, 9, 9]) (by decide)⟩

/-- C6: a stream with a valid 'B','M' signature whose info header carries
bit depth ≠ 24 or compression ≠ 0 fails with `UnsupportedFormat` and
returns no image (the pixel storage is untouched). -/
theorem decode_unsupported_format (img : BMPImage) (data : List Nat)
    (h54 : 54 ≤ data.length)
    (hs0 : data.getD 0 0 = 0x42) (hs1 : data.getD 1 0 = 0x4D)
    (hfmt : bitCountAt data ≠ 24 ∨ compressionAt data ≠ 0) :
    (img.load (some data)).1 = .error .unsupportedFormat ∧
    (img.load (some data)).2.pixels = img.pixels := by
  have hsig : u16le data 0 = 0x4D42 := by
    unfold u16le
    rw [hs0, hs1]
  have h := load_unsupported img data h54 hsig hfmt
  exact ⟨by rw [h], by rw [h]⟩

/-- C6 witness: the stream `ex8bit` has a valid signature, well-formed
fields and `bitCount = 8`; it is rejected with `UnsupportedFormat` and no
pixels are produced. -/
theorem decode_unsupported_format_witness :
    (BMPImage.init.load (some ex8bit)).1 = .error .unsupportedFormat ∧
    (BMPImage.init.load (some ex8bit)).2.pixels = BMPImage.init.pixels ∧
    bitCountAt ex8bit = 8 := by
  have h := decode_unsupported_format BMPImage.init ex8bit (by decide) (by decide)
    (by decide) (by decide)
  exact ⟨h.1, h.2, by decide⟩

/-- C10: when a load is rejected with `UnsupportedFormat`, the decoder
object's header members have already been overwritten by the rejected
stream's headers, so `getWidth`/`getHeight` afterwards report the rejected
file's dimensions, while the pixel grid still holds its previous
contents. -/
theorem load_failure_overwrites_headers (img : BMPImage) (data : List Nat)
    (h54 : 54 ≤ data.length)
    (hs0 : data.getD 0 0 = 0x42) (hs1 : data.getD 1 0 = 0x4D)
    (hfmt : bitCountAt data ≠ 24 ∨ compressionAt data ≠ 0) :
    (img.load (some data)).1 = .error .unsupportedFormat ∧
    (img.load (some data)).2.getWidth = widthAt data ∧
    (img.load (some data)).2.getHeight = heightAt data ∧
    (img.load (some data)).2.pixels = img.pixels := by
  have hsig : u16le data 0 = 0x4D42 := by
    unfold u16le
    rw [hs0, hs1]
  have h := load_unsupported img data h54 hsig hfmt
  rw [h]
  exact ⟨rfl, i32le_ihOf img data 4 (by omega) h54,
    i32le_ihOf img data 8 (by omega) h54, rfl⟩

/-- C10 witness: after successfully loading the 2x2 image, loading the
rejected 8-bit stream (width 7) leaves `getWidth` reporting 7 instead of
the previous 2, while the pixel grid still holds the 4 pixels of the
earlier decode. -/
theorem load_failure_overwrites_headers_witness :
    ((BMPImage.init.load (some ex2x2)).2.load (some ex8bit)).1 =
      .error .unsupportedFormat ∧
    ((BMPImage.init.load (some ex2x2)).2.load (some ex8bit)).2.getWidth = 7 ∧
    (BMPImage.init.load (some ex2x2)).2.getWidth = 2 ∧
    ((BMPImage.init.load (some ex2x2)).2.load (some ex8bit)).2.pixels =
      (BMPImage.init.load (some ex2x2)).2.pixels ∧
    ((BMPImage.init.load (some ex2x2)).2.pixels).length = 4 := by
  have h := load_failure_overwrites_headers (BMPImage.init.load (some ex2x2)).2
    ex8bit (by decide) (by decide) (by decide) (by decide)
  exact ⟨h.1, by rw [h.2.1]; decide, by decide, h.2.2.2, by decide⟩

/-- C8 counterexample: `exTrunc` carries valid 1x1 24-bit headers but its
pixel region is empty — one stored row of 4 bytes is missing — yet `load`
reports success rather than any error: the claim that a too-short
pixel-data region cannot produce a successful result, with read failures
reported as `FileUnreadable`, is false of this code. -/
theorem decode_success_despite_truncation :
    exTrunc.length < offsetAt exTrunc +
      (heightAt exTrunc).natAbs * (rowSizeOf (widthAt exTrunc)).toNat ∧
    (BMPImage.init.load (some exTrunc)).1 = .ok () ∧
    (BMPImage.init.load (some exTrunc)).1 ≠ .error .fileUnreadable := by
  refine ⟨by decide, rfl, fun h => ?_⟩
  rw [show (BMPImage.init.load (some exTrunc)).1 = .ok () from rfl] at h
  exact Except.noConfusion h

/-- C8 (amended): a decode returns a typed error exactly on the three
header-phase failures — an unopenable stream yields `FileUnreadable`, a bad
signature `InvalidSignature`, a wrong bit depth or compression
`UnsupportedFormat` — but once the headers pass (and the width is
nonnegative, since a negative width aborts the program in
`pixels.resize`), the call reports success regardless of whether the pixel
region supplies all `|height|` rows of `rowBytes` bytes (short reads
silently leave the remaining pixels at their buffer values). -/
theorem decode_error_paths (img : BMPImage) (data : List Nat)
    (h54 : 54 ≤ data.length)
    (hsig : u16le data 0 = 0x4D42)
    (hbc : bitCountAt data = 24)
    (hcomp : compressionAt data = 0)
    (hw : 0 ≤ widthAt data) :
    (img.load none).1 = .error .fileUnreadable ∧
    (img.load (some data)).1 = .ok () := by
  refine ⟨rfl, ?_⟩
  rw [load_ok img data h54 hsig hbc hcomp]

/-- C8 witness: the theorem applies to the truncated stream `exTrunc`
itself — its headers pass, so the decode reports success even though the
pixel region is empty. -/
theorem decode_error_paths_witness :
    (BMPImage.init.load none).1 = .error .fileUnreadable ∧
    (BMPImage.init.load (some exTrunc)).1 = .ok () :=
  decode_error_paths BMPImage.init exTrunc (by decide) (by decide) (by decide)
    (by decide) (by decide)

lemma load_badsig_raw (img : BMPImage) (data : List Nat)
    (h14 : 14 ≤ data.length)
    (hsig : u16le data 0 ≠ 0x4D42) :
    img.load (some data) =
      (.error .invalidSignature, ⟨fhOf img data, img.infoHeader, img.pixels⟩) := by
  have hr1 : sread ⟨data, 0, false⟩ 14 img.fileHeader =
      (fhOf img data, ⟨data, 14, false⟩) := by
    rw [sread_ok data 0 14 img.fileHeader (by omega), List.drop_zero]
    rfl
  have hc1 : u16le (fhOf img data) 0 ≠ 0x4D42 := by
    rw [u16le_fhOf img data 0 (by omega) h14]
    exact hsig
  simp only [BMPImage.load, hr1]
  rw [if_pos hc1]

/-- C7: pixel data is read starting exactly at the header's
`pixelDataOffset`: two streams with identical 54 header bytes and
identical bytes from the pixel-data offset onward decode to identical
results, whatever the bytes in the gap in between. -/
theorem decode_respects_offset (img : BMPImage) (d1 d2 : List Nat)
    (hhdr : d1.take 54 = d2.take 54)
    (hpix : d1.drop (offsetAt d1) = d2.drop (offsetAt d2)) :
    img.load (some d1) = img.load (some d2) := by
  by_cases h54 : 54 ≤ d1.length
  · have h54b : 54 ≤ d2.length := by
      have h := congrArg List.length hhdr
      simp only [List.length_take] at h
      omega
    have hg : ∀ i, i < 54 → d1.getD i 0 = d2.getD i 0 := by
      intro i hi
      have hgi : (d1.take 54).getD i 0 = (d2.take 54).getD i 0 := by rw [hhdr]
      rwa [getD_take _ _ _ _ hi, getD_take _ _ _ _ hi] at hgi
    have hu0 : u16le d1 0 = u16le d2 0 := by
      unfold u16le
      rw [hg 0 (by omega), hg 1 (by omega)]
    have hu28 : u16le d1 28 = u16le d2 28 := by
      unfold u16le
      rw [hg 28 (by omega), hg 29 (by omega)]
    have hu30 : u32le d1 30 = u32le d2 30 := by
      unfold u32le
      rw [hg 30 (by omega), hg 31 (by omega), hg 32 (by omega), hg 33 (by omega)]
    have hoff : offsetAt d1 = offsetAt d2 := by
      unfold offsetAt u32le
      rw [hg 10 (by omega), hg 11 (by omega), hg 12 (by omega), hg 13 (by omega)]
    have hwd : widthAt d1 = widthAt d2 := by
      unfold widthAt
      refine i32le_congr _ _ _ _ ?_
      unfold u32le
      rw [hg 18 (by omega), hg 19 (by omega), hg 20 (by omega), hg 21 (by omega)]
    have hht : heightAt d1 = heightAt d2 := by
      unfold heightAt
      refine i32le_congr _ _ _ _ ?_
      unfold u32le
      rw [hg 22 (by omega), hg 23 (by omega), hg 24 (by omega), hg 25 (by omega)]
    have hfh : fhOf img d1 = fhOf img d2 := by
      unfold fhOf
      have ht14 : d1.take 14 = d2.take 14 := by
        calc d1.take 14 = (d1.take 54).take 14 := by rw [List.take_take]; norm_num
          _ = (d2.take 54).take 14 := by rw [hhdr]
          _ = d2.take 14 := by rw [List.take_take]; norm_num
      rw [ht14]
    have hih : ihOf img d1 = ihOf img d2 := by
      unfold ihOf
      have e1 : (d1.take 54).drop 14 = (d1.drop 14).take 40 := by rw [List.drop_take]
      have e2 : (d2.take 54).drop 14 = (d2.drop 14).take 40 := by rw [List.drop_take]
      have hdt : (d1.drop 14).take 40 = (d2.drop 14).take 40 := by
        rw [← e1, ← e2, hhdr]
      rw [hdt]
    by_cases hsig : u16le d1 0 = 0x4D42
    · by_cases hfmt : u16le d1 28 = 24 ∧ u32le d1 30 = 0
      · have hpix2 : d1.drop (offsetAt d2) = d2.drop (offsetAt d2) := hoff ▸ hpix
        rw [load_ok img d1 h54 hsig hfmt.1 hfmt.2,
          load_ok img d2 h54b (hu0 ▸ hsig) (hu28 ▸ hfmt.1) (hu30 ▸ hfmt.2),
          hfh, hih, hwd, hht, hoff]
        have h22 := (loadRows_congr (widthAt d2).toNat
          (rowSizeOf (widthAt d2)).toNat (heightAt d2).natAbs
          (List.replicate (rowSizeOf (widthAt d2)).toNat 0)
          (vecResize img.pixels
            ((widthAt d2 * ((heightAt d2).natAbs : Int)).toNat))
          ⟨d1, offsetAt d2, false⟩ ⟨d2, offsetAt d2, false⟩ rfl hpix2).2
        rw [h22]
      · have hfmt' : u16le d1 28 ≠ 24 ∨ u32le d1 30 ≠ 0 := by
          rcases not_and_or.mp hfmt with h | h
          · exact Or.inl h
          · exact Or.inr h
        rw [load_unsupported img d1 h54 hsig hfmt',
          load_unsupported img d2 h54b (hu0 ▸ hsig)
            (by rw [← hu28, ← hu30]; exact hfmt'),
          hfh, hih]
    · rw [load_badsig_raw img d1 (by omega) hsig,
        load_badsig_raw img d2 (by omega) (by rw [← hu0]; exact hsig),
        hfh]
  · have hl1 : d1.length < 54 := by omega
    have hlm : (d2.take 54).length = d1.length := by
      rw [← hhdr]
      simp only [List.length_take]
      omega
    simp only [List.length_take] at hlm
    have hd : d1 = d2 := by
      calc d1 = d1.take 54 := (List.take_of_length_le (by omega)).symm
        _ = d2.take 54 := hhdr
        _ = d2 := List.take_of_length_le (by omega)
    rw [hd]

/-- C7 witness: `exGap1` and `exGap2` differ exactly in the 4 gap bytes
between the 54-byte headers and the pixel-data offset 58; their decode
results are identical. -/
theorem decode_respects_offset_witness :
    exGap1 ≠ exGap2 ∧
    offsetAt exGap1 = 58 ∧
    BMPImage.init.load (some exGap1) = BMPImage.init.load (some exGap2) := by
  refine ⟨by decide, by decide, ?_⟩
  exact decode_respects_offset BMPImage.init exGap1 exGap2 (by decide) (by decide)

lemma getD_append_ge {α : Type} (l1 l2 : List α) (i : Nat) (d : α)
    (h : l1.length ≤ i) : (l1 ++ l2).getD i d = l2.getD (i - l1.length) d := by
  rw [List.getD_eq_getElem?_getD, List.getElem?_append_right h,
    List.getD_eq_getElem?_getD]

lemma heightReplaced_length (data : List Nat) (h54 : 54 ≤ data.length) :
    (heightReplaced data).length = data.length := by
  simp only [heightReplaced, u32bytes, List.length_append, List.length_take,
    List.length_drop, List.length_cons, List.length_nil]
  omega

lemma heightReplaced_getD_lt (data : List Nat) (i : Nat) (hi : i < 22)
    (h54 : 54 ≤ data.length) :
    (heightReplaced data).getD i 0 = data.getD i 0 := by
  unfold heightReplaced
  rw [getD_append_lt _ _ _ _ (by
    simp only [List.length_append, List.length_take, u32bytes, List.length_cons,
      List.length_nil]
    omega)]
  rw [getD_append_lt _ _ _ _ (by simp only [List.length_take]; omega)]
  rw [getD_take _ _ _ _ hi]

lemma heightReplaced_getD_ge (data : List Nat) (i : Nat) (hi : 26 ≤ i)
    (h54 : 54 ≤ data.length) :
    (heightReplaced data).getD i 0 = data.getD i 0 := by
  unfold heightReplaced
  have hlen : (data.take 22 ++ u32bytes (heightAt data).natAbs).length = 26 := by
    simp only [List.length_append, List.length_take, u32bytes, List.length_cons,
      List.length_nil]
    omega
  rw [getD_append_ge _ _ _ _ (by rw [hlen]; omega), hlen, getD_drop]
  congr 1
  omega

lemma heightReplaced_u32 (data : List Nat) (h54 : 54 ≤ data.length)
    (hH : (heightAt data).natAbs < 4294967296) :
    u32le (heightReplaced data) 22 = (heightAt data).natAbs := by
  have h22 : ∀ c, c < 4 → (heightReplaced data).getD (22 + c) 0 =
      (u32bytes (heightAt data).natAbs).getD c 0 := by
    intro c hc
    unfold heightReplaced
    rw [getD_append_lt _ _ _ _ (by
      simp only [List.length_append, List.length_take, u32bytes, List.length_cons,
        List.length_nil]
      omega)]
    rw [getD_append_ge _ _ _ _ (by simp only [List.length_take]; omega)]
    congr 1
    simp only [List.length_take]
    omega
  have e0 : (heightReplaced data).getD 22 0 =
      (heightAt data).natAbs % 256 := by
    have h := h22 0 (by omega)
    simpa [u32bytes] using h
  have e1 : (heightReplaced data).getD (22 + 1) 0 =
      (heightAt data).natAbs / 256 % 256 := by
    have h := h22 1 (by omega)
    simpa [u32bytes] using h
  have e2 : (heightReplaced data).getD (22 + 2) 0 =
      (heightAt data).natAbs / 65536 % 256 := by
    have h := h22 2 (by omega)
    simpa [u32bytes] using h
  have e3 : (heightReplaced data).getD (22 + 3) 0 =
      (heightAt data).natAbs / 16777216 % 256 := by
    have h := h22 3 (by omega)
    simpa [u32bytes] using h
  unfold u32le
  rw [e0, e1, e2, e3]
  omega

lemma heightReplaced_drop (data : List Nat) (off : Nat) (h54 : 54 ≤ data.length)
    (hoff : 26 ≤ off) :
    (heightReplaced data).drop off = data.drop off := by
  unfold heightReplaced
  have hlen : (data.take 22 ++ u32bytes (heightAt data).natAbs).length = 26 := by
    simp only [List.length_append, List.length_take, u32bytes, List.length_cons,
      List.length_nil]
    omega
  have hsplit : off = (data.take 22 ++ u32bytes (heightAt data).natAbs).length
      + (off - 26) := by
    rw [hlen]
    omega
  rw [hsplit, List.drop_append, List.drop_drop]
  congr 1
  rw [hlen]

/-- C9: for a stream with a negative height field the decoder applies the
very same bottom-up row reversal: the decoded grid is identical to the one
obtained from the same stream with the height field replaced by its
absolute value, while `getHeight` keeps reporting the stored negative
value — top-down storage gets no special handling.  The width must be
nonnegative (a negative width aborts the program in `pixels.resize`
before any decoding). -/
theorem decode_negative_height_same_grid (img : BMPImage) (data : List Nat)
    (h54 : 54 ≤ data.length)
    (hsig : u16le data 0 = 0x4D42)
    (hbc : bitCountAt data = 24)
    (hcomp : compressionAt data = 0)
    (hw : 0 ≤ widthAt data)
    (hneg : heightAt data < 0)
    (hmin : -2147483648 < heightAt data)
    (hoff : 26 ≤ offsetAt data) :
    (img.load (some (heightReplaced data))).2.pixels =
      (img.load (some data)).2.pixels ∧
    (img.load (some data)).1 = .ok () ∧
    (img.load (some (heightReplaced data))).1 = .ok () ∧
    (img.load (some data)).2.getHeight = heightAt data ∧
    (img.load (some (heightReplaced data))).2.getHeight = -(heightAt data) := by
  have hH31 : (heightAt data).natAbs < 2147483648 := by omega
  have hlenr : (heightReplaced data).length = data.length :=
    heightReplaced_length data h54
  have h54r : 54 ≤ (heightReplaced data).length := by omega
  have hgl : ∀ i, i < 22 → (heightReplaced data).getD i 0 = data.getD i 0 :=
    fun i hi => heightReplaced_getD_lt data i hi h54
  have hgg : ∀ i, 26 ≤ i → (heightReplaced data).getD i 0 = data.getD i 0 :=
    fun i hi => heightReplaced_getD_ge data i hi h54
  have hsigr : u16le (heightReplaced data) 0 = 0x4D42 := by
    unfold u16le at hsig ⊢
    rw [hgl 0 (by omega), hgl 1 (by omega)]
    exact hsig
  have hbc' : u16le data 28 = 24 := hbc
  have hbcr : u16le (heightReplaced data) 28 = 24 := by
    unfold u16le at hbc' ⊢
    rw [hgg 28 (by omega), hgg 29 (by omega)]
    exact hbc'
  have hcomp' : u32le data 30 = 0 := hcomp
  have hcompr : u32le (heightReplaced data) 30 = 0 := by
    unfold u32le at hcomp' ⊢
    rw [hgg 30 (by omega), hgg 31 (by omega), hgg 32 (by omega), hgg 33 (by omega)]
    exact hcomp'
  have hoffr : offsetAt (heightReplaced data) = offsetAt data := by
    unfold offsetAt u32le
    rw [hgl 10 (by omega), hgl 11 (by omega), hgl 12 (by omega), hgl 13 (by omega)]
  have hwdr : widthAt (heightReplaced data) = widthAt data := by
    unfold widthAt
    refine i32le_congr _ _ _ _ ?_
    unfold u32le
    rw [hgl 18 (by omega), hgl 19 (by omega), hgl 20 (by omega), hgl 21 (by omega)]
  have hu32h : u32le (heightReplaced data) 22 = (heightAt data).natAbs :=
    heightReplaced_u32 data h54 (by omega)
  have hhtr : heightAt (heightReplaced data) = ((heightAt data).natAbs : Int) := by
    have he : heightAt (heightReplaced data) = i32le (heightReplaced data) 22 := rfl
    rw [he]
    unfold i32le
    rw [hu32h, if_pos hH31]
  have hnabs : (heightAt (heightReplaced data)).natAbs = (heightAt data).natAbs := by
    rw [hhtr]
    exact Int.natAbs_ofNat _
  have hdropr : (heightReplaced data).drop (offsetAt data) =
      data.drop (offsetAt data) :=
    heightReplaced_drop data (offsetAt data) h54 hoff
  rw [load_ok img data h54 hsig hbc hcomp,
    load_ok img (heightReplaced data) h54r hsigr hbcr hcompr]
  refine ⟨?_, rfl, rfl, ?_, ?_⟩
  · dsimp only
    rw [hwdr, hnabs, hoffr]
    exact (loadRows_congr (widthAt data).toNat (rowSizeOf (widthAt data)).toNat
      (heightAt data).natAbs
      (List.replicate (rowSizeOf (widthAt data)).toNat 0)
      (vecResize img.pixels ((widthAt data * ((heightAt data).natAbs : Int)).toNat))
      ⟨heightReplaced data, offsetAt data, false⟩
      ⟨data, offsetAt data, false⟩ rfl hdropr).2
  · exact i32le_ihOf img data 8 (by omega) h54
  · have h1 : i32le (ihOf img (heightReplaced data)) 8 =
        heightAt (heightReplaced data) :=
      i32le_ihOf img (heightReplaced data) 8 (by omega) h54r
    dsimp only [BMPImage.getHeight]
    rw [h1, hhtr]
    omega

/-- C9 witness: the theorem applies to `ex2x2neg` (height -2); replacing
its height field by 2 yields the identical four-pixel grid, while the
returned heights are -2 and 2 respectively. -/
theorem decode_negative_height_same_grid_witness :
    (BMPImage.init.load (some (heightReplaced ex2x2neg))).2.pixels =
      (BMPImage.init.load (some ex2x2neg)).2.pixels ∧
    (BMPImage.init.load (some ex2x2neg)).2.getHeight = -2 ∧
    (BMPImage.init.load (some (heightReplaced ex2x2neg))).2.getHeight = 2 := by
  have h := decode_negative_height_same_grid BMPImage.init ex2x2neg (by decide)
    (by decide) (by decide) (by decide) (by decide) (by decide) (by decide)
    (by decide)
  refine ⟨h.1, ?_, ?_⟩
  · rw [h.2.2.2.1]
    decide
  · rw [h.2.2.2.2]
    decide
